/-
  Verification of the tactic-trainer opportunity classification / aggregation
  engine and position-replay engine.

  Shallow embedding of:
    - src/src/components/DifferenceHeatmap.tsx  (DifferenceHeatmap component and
      the ChessBoardViewer replay component that shares the file)
    - src/src/components/Heatmap.tsx            (Heatmap component)
    - src/src/types.ts                          (data model)

  JavaScript numbers are modelled as Int where the code only ever holds
  integers (centipawns, ply counts, list lengths) and as Rat where the code
  divides (percentages, pawn-unit evaluations); Math.round is modelled as
  floor (x + 1/2), which agrees with JS rounding of non-negative values.
  The external chess-rules library (chess.js) is modelled as an arbitrary
  deterministic function from a position string and move arguments to an
  optional new position string (a thrown exception is modelled as none);
  the external board-scan used for material counting is modelled as an
  arbitrary function from a position string to an integer.
-/
import Mathlib

set_option maxHeartbeats 1000000

/-- Data model from src/src/types.ts (the full variant, which carries
`converted_actual`, `opportunity_kind` and `mate_in`).  TS optional fields
become `Option`. -/
structure ErrorEvent where
  delta_cp : Int
  t_plies : Int
  t_plies_raw : Option Int := none
  ply_index : Int := 0
  move_san : String := ""
  move_uci : String := ""
  best_move_uci : String := ""
  best_move_san : String := ""
  fen : String := ""
  fen_after : String := ""
  pv_moves : List String := []
  pv_evals : List Int := []
  eval_before : Int := 0
  game_url : String := ""
  converted_actual : Int := 0
  opportunity_kind : Option String := none
  mate_in : Option Int := none
deriving DecidableEq

/-- `error.opportunity_kind === 'mate'` as computed in
DifferenceHeatmap.tsx getErrorsForCell. -/
def ErrorEvent.isMateKind (e : ErrorEvent) : Bool :=
  decide (e.opportunity_kind = some "mate")

/-- The standard advantage-axis bucket labels (spec section 4.1). -/
def standardDeltaBins : List String := ["100-299", "300-499", "500-799", "800+"]

/-- The standard conversion-time-axis bucket labels (spec section 4.1). -/
def standardTBins : List String := ["1-3", "5-7", "9-15", "17+"]

namespace DifferenceHeatmap

/-- DifferenceHeatmap.tsx `inTBin` (lines 23-29): fixed case table for the
conversion-time axis. -/
def inTBin (tLabel : String) (t : Int) : Bool :=
  if tLabel = "1-3" then decide (1 ≤ t ∧ t ≤ 3)
  else if tLabel = "5-7" then decide (4 ≤ t ∧ t ≤ 7)
  else if tLabel = "9-15" then decide (8 ≤ t ∧ t ≤ 15)
  else if tLabel = "17+" then decide (16 ≤ t)
  else false

/-- DifferenceHeatmap.tsx `inDeltaBin` (lines 31-38): advantage-axis
classification with mate routing. -/
def inDeltaBin (deltaLabel : String) (delta : Int) (isMate : Bool) : Bool :=
  if deltaLabel = "800+" then isMate || decide (800 ≤ delta)
  else if isMate then false
  else if deltaLabel = "100-299" then decide (100 ≤ delta ∧ delta ≤ 299)
  else if deltaLabel = "300-499" then decide (300 ≤ delta ∧ delta ≤ 499)
  else if deltaLabel = "500-799" then decide (500 ≤ delta ∧ delta ≤ 799)
  else false

/-- `errors.filter(e => e.converted_actual === 0)` — the missed subset. -/
def missedOf (errors : List ErrorEvent) : List ErrorEvent :=
  errors.filter fun e => decide (e.converted_actual = 0)

/-- DifferenceHeatmap.tsx `getErrorsForCell` (lines 40-50).  Out-of-range
bucket indices (never produced by the rendering loops) yield the label ""
which matches no event, like the undefined label in JS. -/
def getErrorsForCell (delta_bins t_bins : List String) (deltaIdx tIdx : Nat)
    (errorList : List ErrorEvent) : List ErrorEvent :=
  let deltaLabel := delta_bins.getD deltaIdx ""
  let tLabel := t_bins.getD tIdx ""
  errorList.filter fun error =>
    inDeltaBin deltaLabel error.delta_cp error.isMateKind && inTBin tLabel error.t_plies

/-- Result record of DifferenceHeatmap.tsx `getCellDifference`. -/
structure CellDiff where
  diff : Rat
  hasData : Bool
deriving DecidableEq

/-- DifferenceHeatmap.tsx `getCellDifference` (lines 53-72). -/
def getCellDifference (delta_bins t_bins : List String)
    (playerErrors fieldErrors : List ErrorEvent) (deltaIdx tIdx : Nat) : CellDiff :=
  let playerMissedInCell := getErrorsForCell delta_bins t_bins deltaIdx tIdx (missedOf playerErrors)
  let playerTotalInCell := getErrorsForCell delta_bins t_bins deltaIdx tIdx playerErrors
  let fieldMissedInCell := getErrorsForCell delta_bins t_bins deltaIdx tIdx (missedOf fieldErrors)
  let fieldTotalInCell := getErrorsForCell delta_bins t_bins deltaIdx tIdx fieldErrors
  if playerTotalInCell.length = 0 ∧ fieldTotalInCell.length = 0 then
    { diff := 0, hasData := false }
  else
    let playerPct : Rat :=
      if 0 < playerTotalInCell.length then
        ((playerMissedInCell.length : Rat) / (playerTotalInCell.length : Rat)) * 100
      else 0
    let fieldPct : Rat :=
      if 0 < fieldTotalInCell.length then
        ((fieldMissedInCell.length : Rat) / (fieldTotalInCell.length : Rat)) * 100
      else 0
    { diff := fieldPct - playerPct, hasData := true }

/-- Math.round, exact over the rationals: floor (x + 1/2). -/
def jsRound (q : Rat) : Int := ⌊q + 1/2⌋

/-- DifferenceHeatmap.tsx `getColor` (lines 75-98): diverging colour scale
with clamping to the range -50..50. -/
def getColor (diff : Rat) (hasData : Bool) : String :=
  if !hasData then "rgb(30, 41, 59)"
  else
    let clampedDiff : Rat := max (-50) (min 50 diff)
    let intensity : Rat := |clampedDiff| / 50
    if clampedDiff < 0 then
      let r := jsRound (51 + (239 - 51) * intensity)
      let g := jsRound (65 + (68 - 65) * intensity)
      let b := jsRound (85 + (68 - 85) * intensity)
      "rgb(" ++ toString r ++ ", " ++ toString g ++ ", " ++ toString b ++ ")"
    else if 0 < clampedDiff then
      let r := jsRound (51 + (34 - 51) * intensity)
      let g := jsRound (65 + (197 - 65) * intensity)
      let b := jsRound (85 + (94 - 85) * intensity)
      "rgb(" ++ toString r ++ ", " ++ toString g ++ ", " ++ toString b ++ ")"
    else
      "rgb(51, 65, 85)"

end DifferenceHeatmap

namespace Heatmap

/-- Result of JS `Number(...)` / bound arithmetic in Heatmap.tsx: a finite
number, Infinity, or NaN (NaN also stands for the undefined max of a
one-part label, since undefined + 1 is NaN). -/
inductive JsBound where
  | fin (n : Int)
  | inf
  | nan
deriving DecidableEq

/-- Split a character list at '-' characters (structural recursion, so that
concrete labels evaluate inside the kernel; same behaviour as JS
`label.split('-')` on these labels). -/
def splitCharsOnDash : List Char → List (List Char)
  | [] => [[]]
  | c :: rest =>
    let r := splitCharsOnDash rest
    if c = '-' then [] :: r
    else
      match r with
      | [] => [[c]]
      | h :: t => (c :: h) :: t

/-- JS `label.split('-')`. -/
def splitOnDash (s : String) : List String :=
  (splitCharsOnDash s.toList).map (fun cs => String.mk cs)

def isDigitChar (c : Char) : Bool := decide ('0' ≤ c ∧ c ≤ '9')

/-- Parse a non-empty all-digit character list as a natural number. -/
def parseDigitsAux : List Char → Nat → Option Nat
  | [], acc => some acc
  | c :: rest, acc =>
    if isDigitChar c then parseDigitsAux rest (acc * 10 + (c.toNat - 48)) else none

/-- JS Number(s) for a label fragment: Number('') is 0, digit strings parse,
anything else (e.g. "17+") is NaN. -/
def jsNumberOf (s : String) : JsBound :=
  if s.toList = [] then .fin 0
  else
    match parseDigitsAux s.toList 0 with
    | some n => .fin (n : Int)
    | none => .nan

/-- `max + 1` on a parsed bound (NaN and Infinity absorb). -/
def boundAddOne : JsBound → JsBound
  | .fin n => .fin (n + 1)
  | .inf => .inf
  | .nan => .nan

/-- `x >= b` with JS comparison semantics (comparisons with NaN are false). -/
def jsGe (x : Int) : JsBound → Bool
  | .fin n => decide (n ≤ x)
  | .inf => false
  | .nan => false

/-- `x < b` with JS comparison semantics. -/
def jsLt (x : Int) : JsBound → Bool
  | .fin n => decide (x < n)
  | .inf => true
  | .nan => false

/-- Shared body of Heatmap.tsx `getDeltaBounds`/`getTBounds`: split the label
on '-', Number() the first two parts (a missing second part is undefined,
hence NaN after + 1), and return [min, max + 1). -/
def parseBounds (label : String) : JsBound × JsBound :=
  let parts := splitOnDash label
  let minB := jsNumberOf (parts.getD 0 "")
  let maxB := if 2 ≤ parts.length then jsNumberOf (parts.getD 1 "") else .nan
  (minB, boundAddOne maxB)

/-- Heatmap.tsx `getDeltaBounds` (lines 21-27). -/
def getDeltaBounds (label : String) : JsBound × JsBound :=
  if label = "800+" then (.fin 800, .inf) else parseBounds label

/-- Heatmap.tsx `getTBounds` (lines 30-36).  Only the label "32+" is
special-cased; every other label is parsed arithmetically. -/
def getTBounds (label : String) : JsBound × JsBound :=
  if label = "32+" then (.fin 32, .inf) else parseBounds label

/-- The filter predicate inside Heatmap.tsx `getErrorsForCell` (lines 46-52):
`delta >= deltaMin && delta < deltaMax && t >= tMin && t < tMax`. -/
def cellMatches (deltaLabel tLabel : String) (error : ErrorEvent) : Bool :=
  let db := getDeltaBounds deltaLabel
  let tb := getTBounds tLabel
  jsGe error.delta_cp db.1 && jsLt error.delta_cp db.2 &&
    jsGe error.t_plies tb.1 && jsLt error.t_plies tb.2

/-- Heatmap.tsx `getErrorsForCell` (lines 39-53). -/
def getErrorsForCell (delta_bins t_bins : List String) (deltaIdx tIdx : Nat)
    (errorList : List ErrorEvent) : List ErrorEvent :=
  errorList.filter (cellMatches (delta_bins.getD deltaIdx "") (t_bins.getD tIdx ""))

/-- The two view modes of Heatmap.tsx. -/
inductive ViewMode where
  | count
  | percentage
deriving DecidableEq

/-- Result record of Heatmap.tsx `getCellData`. -/
structure CellData where
  display : String
  count : Int
deriving DecidableEq

/-- Heatmap.tsx `getCellData` (lines 56-76). -/
def getCellData (viewMode : ViewMode) (delta_bins t_bins : List String)
    (errors : List ErrorEvent) (deltaIdx tIdx : Nat) : CellData :=
  let missedInCell :=
    getErrorsForCell delta_bins t_bins deltaIdx tIdx (DifferenceHeatmap.missedOf errors)
  let totalInCell := getErrorsForCell delta_bins t_bins deltaIdx tIdx errors
  match viewMode with
  | .count => { display := toString missedInCell.length, count := missedInCell.length }
  | .percentage =>
    if totalInCell.length = 0 then { display := "0%", count := 0 }
    else
      let percentage : Rat := ((missedInCell.length : Rat) / (totalInCell.length : Rat)) * 100
      { display := toString (DifferenceHeatmap.jsRound percentage) ++ "%",
        count := DifferenceHeatmap.jsRound percentage }

end Heatmap

/-- The advantage label that DifferenceHeatmap's `inDeltaBin` selects from the
standard label set (proof helper). -/
def deltaLabelOf (d : Int) (m : Bool) : String :=
  if m then "800+"
  else if d ≤ 299 then "100-299"
  else if d ≤ 499 then "300-499"
  else if d ≤ 799 then "500-799"
  else "800+"

/-- The time label that DifferenceHeatmap's `inTBin` selects from the standard
label set (proof helper). -/
def tLabelOf (t : Int) : String :=
  if t ≤ 3 then "1-3"
  else if t ≤ 7 then "5-7"
  else if t ≤ 15 then "9-15"
  else "17+"

/-- A mate-kind event with a small delta_cp, used to exercise the two
classifiers on mate events. -/
def evMate150 : ErrorEvent :=
  { delta_cp := 150, t_plies := 2, opportunity_kind := some "mate" }

/-- A cp-kind event sitting on the absorbed time boundary t_plies = 4. -/
def evT4 : ErrorEvent :=
  { delta_cp := 150, t_plies := 4, opportunity_kind := some "cp" }

/-- The end-to-end scenario event of the spec: delta_cp 250, t_plies 6. -/
def evCp250 : ErrorEvent :=
  { delta_cp := 250, t_plies := 6, opportunity_kind := some "cp" }

/-- A missed opportunity (converted_actual = 0) in the "100-299" x "1-3" cell. -/
def evMiss : ErrorEvent :=
  { delta_cp := 150, t_plies := 2, converted_actual := 0, opportunity_kind := some "cp" }

/-- A converted opportunity (converted_actual = 1) in the same cell. -/
def evConv : ErrorEvent :=
  { delta_cp := 150, t_plies := 2, converted_actual := 1, opportunity_kind := some "cp" }

/-- Three missed and one converted event in one cell. -/
def errs4 : List ErrorEvent := [evMiss, evMiss, evMiss, evConv]

namespace ChessBoardViewer

/-- The external chess-rules engine (chess.js `new Chess(pos).move({from, to,
promotion})`), excluded from the core by the spec: an arbitrary deterministic
function from the current position string and the move arguments to the new
position string, or none when the move throws. -/
abbrev ApplyMove := String → String → String → Option String → Option String

/-- The external board scan composed with the in-component piece-value
summation (`getAbsoluteMaterialDiff`, which delegates the board derivation to
chess.js): an arbitrary function from a position string to a signed material
count. -/
abbrev MaterialScan := String → Int

/-- JS `s.slice(a, b)` pieces, via the character list so that concrete
strings evaluate inside the kernel. -/
def strTake (s : String) (n : Nat) : String := String.mk (s.toList.take n)

def strDrop (s : String) (n : Nat) : String := String.mk (s.toList.drop n)

/-- `uci.slice(0, 2)`. -/
def uciFrom (uci : String) : String := strTake uci 2

/-- `uci.slice(2, 4)`. -/
def uciTo (uci : String) : String := strTake (strDrop uci 2) 2

/-- `uci.length > 4 ? uci[4] : undefined`. -/
def uciPromotion (uci : String) : Option String :=
  if 4 < uci.toList.length then some (strTake (strDrop uci 4) 1) else none

/-- One `chess.move({from, to, promotion})` call on a UCI move string. -/
def applyUci (am : ApplyMove) (p : String) (uci : String) : Option String :=
  am p (uciFrom uci) (uciTo uci) (uciPromotion uci)

/-- The React state of the ChessBoardViewer component: position, cursor
(moveIndex), arrow overlay list, displayed evaluation and material delta. -/
structure ReplayState where
  position : String
  moveIndex : Int
  customArrows : List (String × String × String)
  currentEval : Rat
  materialDiff : Int
deriving DecidableEq

/-- The black arrow for the opponent's mistake (updateArrows, lines 186-189). -/
def mistakeArrow (e : ErrorEvent) : String × String × String :=
  (uciFrom e.move_uci, uciTo e.move_uci, "rgba(0, 0, 0, 0.5)")

/-- The light blue arrow for the best reply (updateArrows, lines 191-196). -/
def bestReplyArrow (e : ErrorEvent) : String × String × String :=
  (uciFrom e.best_move_uci, uciTo e.best_move_uci, "rgba(135, 206, 250, 0.7)")

/-- `updateArrows` (lines 183-199): always pushes the mistake arrow, and the
best-reply arrow only when the `moveIndex` visible in the closure is -1 and
`best_move_uci` is truthy (non-empty). -/
def updateArrows (e : ErrorEvent) (moveIndex : Int) : List (String × String × String) :=
  [mistakeArrow e] ++
    (if moveIndex = -1 ∧ e.best_move_uci ≠ "" then [bestReplyArrow e] else [])

/-- `getEvalForPosition` (lines 238-262).  Only called with index ≥ -1; for
index = -1 the stored centipawn eval_before is converted to pawns, for an
index inside pv_evals the stored trace value is used, otherwise the linear
fallback interpolates with progress (index+1)/(t_plies or 1). -/
def getEvalForPosition (e : ErrorEvent) (index : Int) : Rat :=
  if index = -1 then (e.eval_before : Rat) / 100
  else if 0 < e.pv_evals.length ∧ index < (e.pv_evals.length : Int) then
    ((e.pv_evals.getD index.toNat 0 : Int) : Rat) / 100
  else
    let progress : Rat :=
      ((index + 1 : Int) : Rat) / (((if e.t_plies = 0 then 1 else e.t_plies) : Int) : Rat)
    (e.eval_before : Rat) / 100 + ((e.delta_cp : Rat) / 100) * progress

/-- `calculateMaterialChange` (lines 233-236): current absolute material
minus the baseline computed once at `fen_after`. -/
def calculateMaterialChange (mat : MaterialScan) (e : ErrorEvent) (fen : String) : Int :=
  mat fen - mat e.fen_after

/-- The state after the `[error]` effect on a fresh mount (lines 168-181):
position `fen_after`, cursor -1, arrows from `updateArrows` with the mounted
moveIndex -1, eval_before in pawns, material delta 0. -/
def initState (e : ErrorEvent) : ReplayState :=
  { position := e.fen_after
    moveIndex := -1
    customArrows := updateArrows e (-1)
    currentEval := (e.eval_before : Rat) / 100
    materialDiff := 0 }

/-- `handleNext` (lines 264-315).  A thrown move application (none) leaves the
state unchanged, as does a missing pv move or an empty best_move_uci. -/
def handleNext (am : ApplyMove) (mat : MaterialScan) (e : ErrorEvent)
    (s : ReplayState) : ReplayState :=
  if e.t_plies ≤ s.moveIndex then s
  else
    let newIndex := s.moveIndex + 1
    if newIndex = 0 then
      if e.best_move_uci ≠ "" then
        match applyUci am s.position e.best_move_uci with
        | some fen2 =>
          { position := fen2
            moveIndex := 0
            customArrows := []
            currentEval := getEvalForPosition e 0
            materialDiff := calculateMaterialChange mat e fen2 }
        | none => s
      else s
    else
      if newIndex < (e.pv_moves.length : Int) then
        match applyUci am s.position (e.pv_moves.getD newIndex.toNat "") with
        | some fen2 =>
          { position := fen2
            moveIndex := newIndex
            customArrows := s.customArrows
            currentEval := getEvalForPosition e newIndex
            materialDiff := calculateMaterialChange mat e fen2 }
        | none => s
      else s

/-- The rebuild loop of `handlePrevious` (lines 331-353): start from
`fen_after`, apply the best reply when truthy, then pv_moves[1..newIndex]
(indices at or beyond pv_moves.length are skipped); a throw anywhere aborts
the whole rebuild (none). -/
def rebuildPosition (am : ApplyMove) (e : ErrorEvent) (newIndex : Int) : Option String :=
  let afterBest : Option String :=
    if e.best_move_uci ≠ "" then applyUci am e.fen_after e.best_move_uci
    else some e.fen_after
  (List.range newIndex.toNat).foldl
    (fun acc j =>
      if ((j + 1 : Nat) : Int) < (e.pv_moves.length : Int) then
        acc.bind fun p => applyUci am p (e.pv_moves.getD (j + 1) "")
      else acc)
    afterBest

/-- `handlePrevious` (lines 317-366).  Retreating from moveIndex 0 calls
`updateArrows` with the still-current closure value 0 of `moveIndex`, so only
the mistake arrow is pushed; retreating from a larger index rebuilds the
position from scratch and keeps the arrows. -/
def handlePrevious (am : ApplyMove) (mat : MaterialScan) (e : ErrorEvent)
    (s : ReplayState) : ReplayState :=
  if s.moveIndex = -1 then s
  else if s.moveIndex = 0 then
    { position := e.fen_after
      moveIndex := -1
      customArrows := updateArrows e s.moveIndex
      currentEval := getEvalForPosition e (-1)
      materialDiff := 0 }
  else
    let newIndex := s.moveIndex - 1
    match rebuildPosition am e newIndex with
    | some fen2 =>
      { position := fen2
        moveIndex := newIndex
        customArrows := s.customArrows
        currentEval := getEvalForPosition e newIndex
        materialDiff := calculateMaterialChange mat e fen2 }
    | none => s

/-- The canonical position chain: step 0 is the state k = -1 (fen_after),
step 1 the best reply applied, step n+2 the pv move with index n+1 applied to
step n+1. -/
def posAt (am : ApplyMove) (e : ErrorEvent) : Nat → Option String
  | 0 => some e.fen_after
  | 1 => if e.best_move_uci ≠ "" then applyUci am e.fen_after e.best_move_uci else none
  | n + 2 => (posAt am e (n + 1)).bind fun p => applyUci am p (e.pv_moves.getD (n + 1) "")

/-- The states the replay component can actually be in for a given event:
the freshly mounted state and everything reachable through the two
navigation handlers. -/
inductive Reachable (am : ApplyMove) (mat : MaterialScan) (e : ErrorEvent) :
    ReplayState → Prop where
  | init : Reachable am mat e (initState e)
  | next {s} : Reachable am mat e s → Reachable am mat e (handleNext am mat e s)
  | prev {s} : Reachable am mat e s → Reachable am mat e (handlePrevious am mat e s)

/-- The replay invariant: the cursor stays in [-1, t_plies], the position is
the canonical chain value at the cursor, every pv index used so far exists,
and the arrow list is empty at cursor ≥ 0 and an `updateArrows` value at
cursor -1. -/
def ReplayInv (am : ApplyMove) (e : ErrorEvent) (s : ReplayState) : Prop :=
  -1 ≤ s.moveIndex ∧ s.moveIndex ≤ e.t_plies ∧
  posAt am e (s.moveIndex + 1).toNat = some s.position ∧
  (∀ j : Int, 1 ≤ j → j ≤ s.moveIndex → j < (e.pv_moves.length : Int)) ∧
  (0 ≤ s.moveIndex → s.customArrows = []) ∧
  (s.moveIndex = -1 →
    s.customArrows = updateArrows e (-1) ∨ s.customArrows = updateArrows e 0)

/-- A toy deterministic rules engine for concrete witnesses: record each move
on the position string (total, so every application succeeds). -/
def toyAm : ApplyMove := fun p f t _ => some (p ++ "." ++ f ++ t)

/-- A toy board scan for concrete witnesses. -/
def toyMat : MaterialScan := fun _ => 0

/-- Replay event with pv_moves longer than t_plies: the full walk to the
terminal state works. -/
def evReplay : ErrorEvent :=
  { delta_cp := 250, t_plies := 2, opportunity_kind := some "cp",
    move_uci := "e2e4", best_move_uci := "d7d5",
    fen_after := "FEN0", pv_moves := ["d7d5", "g1f3", "b8c6"],
    pv_evals := [30, 50], eval_before := 120 }

/-- Replay event whose pv_moves list has exactly t_plies entries: advancing
stalls one short of the terminal state. -/
def evShortPv : ErrorEvent :=
  { delta_cp := 250, t_plies := 2, opportunity_kind := some "cp",
    move_uci := "e2e4", best_move_uci := "d7d5",
    fen_after := "FEN0", pv_moves := ["d7d5", "g1f3"],
    pv_evals := [], eval_before := 120 }

/-- Replay event with t_plies 5 but only 2 pv moves: the cursor stalls at 1,
an interior state where advance is a no-op. -/
def evStall : ErrorEvent :=
  { delta_cp := 250, t_plies := 5, opportunity_kind := some "cp",
    move_uci := "e2e4", best_move_uci := "d7d5",
    fen_after := "FEN0", pv_moves := ["d7d5", "g1f3"],
    pv_evals := [], eval_before := 120 }

end ChessBoardViewer

lemma deltaLabelOf_true (d : Int) : deltaLabelOf d true = "800+" := rfl

lemma deltaLabelOf_false (d : Int) :
    deltaLabelOf d false =
      if d ≤ 299 then "100-299"
      else if d ≤ 499 then "300-499"
      else if d ≤ 799 then "500-799"
      else "800+" := rfl

lemma inDeltaBin_800_iff (d : Int) (m : Bool) :
    DifferenceHeatmap.inDeltaBin "800+" d m = true ↔ m = true ∨ 800 ≤ d := by
  cases m <;> simp [show ∀ x, DifferenceHeatmap.inDeltaBin "800+" d x
    = (x || decide (800 ≤ d)) from fun x => by cases x <;> rfl]

lemma inDeltaBin_100299_iff (d : Int) (m : Bool) :
    DifferenceHeatmap.inDeltaBin "100-299" d m = true ↔
      m = false ∧ 100 ≤ d ∧ d ≤ 299 := by
  cases m <;> simp [show ∀ x, DifferenceHeatmap.inDeltaBin "100-299" d x
    = (!x && decide (100 ≤ d ∧ d ≤ 299)) from fun x => by cases x <;> rfl]

lemma inDeltaBin_300499_iff (d : Int) (m : Bool) :
    DifferenceHeatmap.inDeltaBin "300-499" d m = true ↔
      m = false ∧ 300 ≤ d ∧ d ≤ 499 := by
  cases m <;> simp [show ∀ x, DifferenceHeatmap.inDeltaBin "300-499" d x
    = (!x && decide (300 ≤ d ∧ d ≤ 499)) from fun x => by cases x <;> rfl]

lemma inDeltaBin_500799_iff (d : Int) (m : Bool) :
    DifferenceHeatmap.inDeltaBin "500-799" d m = true ↔
      m = false ∧ 500 ≤ d ∧ d ≤ 799 := by
  cases m <;> simp [show ∀ x, DifferenceHeatmap.inDeltaBin "500-799" d x
    = (!x && decide (500 ≤ d ∧ d ≤ 799)) from fun x => by cases x <;> rfl]

lemma mem_deltaLabelOf (d : Int) (m : Bool) (h : m = true ∨ 100 ≤ d) :
    deltaLabelOf d m ∈ standardDeltaBins ∧
      DifferenceHeatmap.inDeltaBin (deltaLabelOf d m) d m = true := by
  cases m with
  | true =>
    rw [deltaLabelOf_true]
    exact ⟨by decide, (inDeltaBin_800_iff d true).mpr (Or.inl rfl)⟩
  | false =>
    simp only [Bool.false_eq_true, false_or] at h
    rw [deltaLabelOf_false]
    by_cases h1 : d ≤ 299
    · rw [if_pos h1]
      exact ⟨by decide, (inDeltaBin_100299_iff d false).mpr ⟨rfl, h, h1⟩⟩
    · rw [if_neg h1]
      by_cases h2 : d ≤ 499
      · rw [if_pos h2]
        exact ⟨by decide, (inDeltaBin_300499_iff d false).mpr ⟨rfl, by omega, h2⟩⟩
      · rw [if_neg h2]
        by_cases h3 : d ≤ 799
        · rw [if_pos h3]
          exact ⟨by decide, (inDeltaBin_500799_iff d false).mpr ⟨rfl, by omega, h3⟩⟩
        · rw [if_neg h3]
          exact ⟨by decide, (inDeltaBin_800_iff d false).mpr (Or.inr (by omega))⟩

lemma deltaMatch_imp_eq (d : Int) (m : Bool) (l : String)
    (hl : l ∈ standardDeltaBins)
    (hm : DifferenceHeatmap.inDeltaBin l d m = true) : l = deltaLabelOf d m := by
  fin_cases hl
  · rw [inDeltaBin_100299_iff] at hm
    obtain ⟨rfl, ha, hb⟩ := hm
    rw [deltaLabelOf_false]
    split_ifs <;> first | rfl | omega
  · rw [inDeltaBin_300499_iff] at hm
    obtain ⟨rfl, ha, hb⟩ := hm
    rw [deltaLabelOf_false]
    split_ifs <;> first | rfl | omega
  · rw [inDeltaBin_500799_iff] at hm
    obtain ⟨rfl, ha, hb⟩ := hm
    rw [deltaLabelOf_false]
    split_ifs <;> first | rfl | omega
  · rw [inDeltaBin_800_iff] at hm
    rcases hm with rfl | ha
    · rw [deltaLabelOf_true]
    · cases m with
      | true => rw [deltaLabelOf_true]
      | false =>
        rw [deltaLabelOf_false]
        split_ifs <;> first | rfl | omega

lemma delta_bucket_unique (d : Int) (m : Bool) (h : m = true ∨ 100 ≤ d) :
    ∃! l, l ∈ standardDeltaBins ∧ DifferenceHeatmap.inDeltaBin l d m = true := by
  obtain ⟨h1, h2⟩ := mem_deltaLabelOf d m h
  exact ⟨deltaLabelOf d m, ⟨h1, h2⟩, fun l hl => deltaMatch_imp_eq d m l hl.1 hl.2⟩

lemma inTBin_13_iff (t : Int) :
    DifferenceHeatmap.inTBin "1-3" t = true ↔ 1 ≤ t ∧ t ≤ 3 := by
  simp [show DifferenceHeatmap.inTBin "1-3" t = decide (1 ≤ t ∧ t ≤ 3) from rfl]

lemma inTBin_57_iff (t : Int) :
    DifferenceHeatmap.inTBin "5-7" t = true ↔ 4 ≤ t ∧ t ≤ 7 := by
  simp [show DifferenceHeatmap.inTBin "5-7" t = decide (4 ≤ t ∧ t ≤ 7) from rfl]

lemma inTBin_915_iff (t : Int) :
    DifferenceHeatmap.inTBin "9-15" t = true ↔ 8 ≤ t ∧ t ≤ 15 := by
  simp [show DifferenceHeatmap.inTBin "9-15" t = decide (8 ≤ t ∧ t ≤ 15) from rfl]

lemma inTBin_17_iff (t : Int) :
    DifferenceHeatmap.inTBin "17+" t = true ↔ 16 ≤ t := by
  simp [show DifferenceHeatmap.inTBin "17+" t = decide (16 ≤ t) from rfl]

lemma tLabelOf_eval (t : Int) :
    tLabelOf t =
      if t ≤ 3 then "1-3"
      else if t ≤ 7 then "5-7"
      else if t ≤ 15 then "9-15"
      else "17+" := rfl

lemma mem_tLabelOf (t : Int) (h : 1 ≤ t) :
    tLabelOf t ∈ standardTBins ∧ DifferenceHeatmap.inTBin (tLabelOf t) t = true := by
  rw [tLabelOf_eval]
  by_cases h1 : t ≤ 3
  · rw [if_pos h1]
    exact ⟨by decide, (inTBin_13_iff t).mpr ⟨h, h1⟩⟩
  · rw [if_neg h1]
    by_cases h2 : t ≤ 7
    · rw [if_pos h2]
      exact ⟨by decide, (inTBin_57_iff t).mpr ⟨by omega, h2⟩⟩
    · rw [if_neg h2]
      by_cases h3 : t ≤ 15
      · rw [if_pos h3]
        exact ⟨by decide, (inTBin_915_iff t).mpr ⟨by omega, h3⟩⟩
      · rw [if_neg h3]
        exact ⟨by decide, (inTBin_17_iff t).mpr (by omega)⟩

lemma tMatch_imp_eq (t : Int) (l : String)
    (hl : l ∈ standardTBins)
    (hm : DifferenceHeatmap.inTBin l t = true) : l = tLabelOf t := by
  fin_cases hl
  · rw [inTBin_13_iff] at hm
    obtain ⟨ha, hb⟩ := hm
    rw [tLabelOf_eval]
    split_ifs <;> first | rfl | omega
  · rw [inTBin_57_iff] at hm
    obtain ⟨ha, hb⟩ := hm
    rw [tLabelOf_eval]
    split_ifs <;> first | rfl | omega
  · rw [inTBin_915_iff] at hm
    obtain ⟨ha, hb⟩ := hm
    rw [tLabelOf_eval]
    split_ifs <;> first | rfl | omega
  · rw [inTBin_17_iff] at hm
    rw [tLabelOf_eval]
    split_ifs <;> first | rfl | omega

lemma t_bucket_unique (t : Int) (h : 1 ≤ t) :
    ∃! l, l ∈ standardTBins ∧ DifferenceHeatmap.inTBin l t = true := by
  obtain ⟨h1, h2⟩ := mem_tLabelOf t h
  exact ⟨tLabelOf t, ⟨h1, h2⟩, fun l hl => tMatch_imp_eq t l hl.1 hl.2⟩

/-- C1 (amended): in DifferenceHeatmap's advantage-axis classifier
`inDeltaBin`, an event of kind mate is placed in the "800+" bucket regardless
of delta_cp, and matches no other label (in particular none of the
finite-range labels). -/
theorem c1_mate_routed_to_top_bucket (e : ErrorEvent)
    (hm : e.opportunity_kind = some "mate") :
    DifferenceHeatmap.inDeltaBin "800+" e.delta_cp e.isMateKind = true ∧
    ∀ l : String, l ≠ "800+" →
      DifferenceHeatmap.inDeltaBin l e.delta_cp e.isMateKind = false := by
  have hb : e.isMateKind = true := by simp [ErrorEvent.isMateKind, hm]
  refine ⟨by simp [DifferenceHeatmap.inDeltaBin, hb], fun l hl => ?_⟩
  simp [DifferenceHeatmap.inDeltaBin, hl, hb]

/-- C1 witness: the mate event with delta_cp = 150 is routed to "800+" and
does not match "100-299" under inDeltaBin. -/
theorem c1_witness :
    evMate150.opportunity_kind = some "mate" ∧
    DifferenceHeatmap.inDeltaBin "800+" evMate150.delta_cp evMate150.isMateKind = true ∧
    DifferenceHeatmap.inDeltaBin "100-299" evMate150.delta_cp evMate150.isMateKind = false :=
  ⟨rfl, (c1_mate_routed_to_top_bucket evMate150 rfl).1,
    (c1_mate_routed_to_top_bucket evMate150 rfl).2 "100-299" (by decide)⟩

/-- C1 counterexample: Heatmap.tsx's cell classification (`getErrorsForCell`,
also cited by the claim) ignores `opportunity_kind`: the mate event with
delta_cp = 150 matches the finite-range advantage bucket "100-299" and does
not match "800+". -/
theorem c1_counterexample :
    evMate150.opportunity_kind = some "mate" ∧
    Heatmap.cellMatches "100-299" "1-3" evMate150 = true ∧
    Heatmap.cellMatches "800+" "1-3" evMate150 = false ∧
    Heatmap.getErrorsForCell standardDeltaBins standardTBins 0 0 [evMate150] =
      [evMate150] := by
  refine ⟨rfl, by decide, by decide, by decide⟩

/-- C2 (amended): DifferenceHeatmap's `inTBin` realises exactly the fixed
membership table 1-3 maps to 1..3, 5-7 to 4..7, 9-15 to 8..15, 17+ to 16 and
up; in particular t_plies 4 lands in "5-7" and not "1-3", 8 in "9-15", and
16 in "17+". -/
theorem c2_time_axis_fixed_table :
    (∀ t : Int,
      (DifferenceHeatmap.inTBin "1-3" t = true ↔ 1 ≤ t ∧ t ≤ 3) ∧
      (DifferenceHeatmap.inTBin "5-7" t = true ↔ 4 ≤ t ∧ t ≤ 7) ∧
      (DifferenceHeatmap.inTBin "9-15" t = true ↔ 8 ≤ t ∧ t ≤ 15) ∧
      (DifferenceHeatmap.inTBin "17+" t = true ↔ 16 ≤ t)) ∧
    DifferenceHeatmap.inTBin "5-7" 4 = true ∧
    DifferenceHeatmap.inTBin "1-3" 4 = false ∧
    DifferenceHeatmap.inTBin "9-15" 8 = true ∧
    DifferenceHeatmap.inTBin "17+" 16 = true := by
  refine ⟨fun t => ?_, by decide, by decide, by decide, by decide⟩
  simp [DifferenceHeatmap.inTBin]

/-- C2 counterexample: Heatmap.tsx's classification (`getTBounds`, also cited
by the claim) parses labels arithmetically, so the event with t_plies = 4 is
not placed in "5-7" — it matches no standard time bucket at all there. -/
theorem c2_counterexample :
    evT4.t_plies = 4 ∧
    Heatmap.cellMatches "100-299" "5-7" evT4 = false ∧
    Heatmap.cellMatches "100-299" "1-3" evT4 = false ∧
    Heatmap.cellMatches "100-299" "9-15" evT4 = false ∧
    Heatmap.cellMatches "100-299" "17+" evT4 = false := by
  refine ⟨rfl, by decide, by decide, by decide, by decide⟩

/-- C3: for a well-formed event (delta_cp at least 100 or mate kind, t_plies
at least 1), DifferenceHeatmap's classifiers match exactly one
(advantage-bucket, time-bucket) pair among the standard label sets; being a
pure function of the event, repeated classification yields the same pair. -/
theorem c3_classification_exactly_one_pair (e : ErrorEvent)
    (hwf : e.opportunity_kind = some "mate" ∨ 100 ≤ e.delta_cp)
    (ht : 1 ≤ e.t_plies) :
    ∃! p : String × String,
      p.1 ∈ standardDeltaBins ∧ p.2 ∈ standardTBins ∧
      DifferenceHeatmap.inDeltaBin p.1 e.delta_cp e.isMateKind = true ∧
      DifferenceHeatmap.inTBin p.2 e.t_plies = true := by
  have hm : e.isMateKind = true ∨ 100 ≤ e.delta_cp := by
    rcases hwf with h | h
    · left; simp [ErrorEvent.isMateKind, h]
    · right; exact h
  obtain ⟨ld, ⟨hld, hmd⟩, hud⟩ := delta_bucket_unique e.delta_cp e.isMateKind hm
  obtain ⟨lT, ⟨hlT, hmT⟩, huT⟩ := t_bucket_unique e.t_plies ht
  refine ⟨(ld, lT), ⟨hld, hlT, hmd, hmT⟩, ?_⟩
  rintro ⟨pd, pt⟩ ⟨h1, h2, h3, h4⟩
  have e1 := hud pd ⟨h1, h3⟩
  have e2 := huT pt ⟨h2, h4⟩
  simp [e1, e2]

/-- C3 witness: the spec's end-to-end event (delta_cp 250, cp kind, t_plies 6)
is well-formed and matches exactly one pair. -/
theorem c3_witness :
    (evCp250.opportunity_kind = some "mate" ∨ 100 ≤ evCp250.delta_cp) ∧
    1 ≤ evCp250.t_plies ∧
    ∃! p : String × String,
      p.1 ∈ standardDeltaBins ∧ p.2 ∈ standardTBins ∧
      DifferenceHeatmap.inDeltaBin p.1 evCp250.delta_cp evCp250.isMateKind = true ∧
      DifferenceHeatmap.inTBin p.2 evCp250.t_plies = true :=
  ⟨by decide, by decide,
    c3_classification_exactly_one_pair evCp250 (by decide) (by decide)⟩

/-- C7: in percentage view a cell with zero total events renders "0%", and a
cell with at least one total event renders the rounded miss percentage
followed by "%". -/
theorem c7_percentage_view (delta_bins t_bins : List String)
    (errors : List ErrorEvent) (deltaIdx tIdx : Nat) :
    ((Heatmap.getErrorsForCell delta_bins t_bins deltaIdx tIdx errors).length = 0 →
      (Heatmap.getCellData .percentage delta_bins t_bins errors deltaIdx tIdx).display
        = "0%") ∧
    (0 < (Heatmap.getErrorsForCell delta_bins t_bins deltaIdx tIdx errors).length →
      (Heatmap.getCellData .percentage delta_bins t_bins errors deltaIdx tIdx).display
        = toString (DifferenceHeatmap.jsRound
            (((Heatmap.getErrorsForCell delta_bins t_bins deltaIdx tIdx
                (DifferenceHeatmap.missedOf errors)).length : Rat)
              / ((Heatmap.getErrorsForCell delta_bins t_bins deltaIdx tIdx
                errors).length : Rat) * 100)) ++ "%") := by
  constructor
  · intro h
    simp [Heatmap.getCellData, h]
  · intro h
    have h0 : ¬ (Heatmap.getErrorsForCell delta_bins t_bins deltaIdx tIdx errors).length
        = 0 := by omega
    simp [Heatmap.getCellData, h0]

/-- C7 witness: 3 missed of 4 total in the cell renders "75%". -/
theorem c7_witness :
    0 < (Heatmap.getErrorsForCell ["100-299"] ["1-3"] 0 0 errs4).length ∧
    (Heatmap.getCellData .percentage ["100-299"] ["1-3"] errs4 0 0).display = "75%" := by
  refine ⟨by decide, ?_⟩
  have h := (c7_percentage_view ["100-299"] ["1-3"] errs4 0 0).2 (by decide)
  rw [h]
  have h1 : (Heatmap.getErrorsForCell ["100-299"] ["1-3"] 0 0
      (DifferenceHeatmap.missedOf errs4)).length = 3 := by decide
  have h2 : (Heatmap.getErrorsForCell ["100-299"] ["1-3"] 0 0 errs4).length = 4 := by
    decide
  rw [h1, h2]
  have h3 : DifferenceHeatmap.jsRound (((3 : Nat) : Rat) / ((4 : Nat) : Rat) * 100)
      = 75 := by
    unfold DifferenceHeatmap.jsRound
    rw [Int.floor_eq_iff] <;> norm_num
  rw [h3]
  decide

lemma clamp_idem (d : Rat) :
    max (-50) (min 50 (max (-50) (min 50 d))) = max (-50) (min 50 d) := by
  have h1 : (-50 : Rat) ≤ max (-50) (min 50 d) := le_max_left _ _
  have h2 : max (-50) (min 50 d) ≤ 50 := max_le (by norm_num) (min_le_left _ _)
  rw [min_eq_right h2, max_eq_right h1]

/-- C8: the differential cell score is field miss-percentage minus player
miss-percentage with a zero-total side contributing 0; the score is clamped to
the -50..50 range before colour mapping; and a cell with no events on either
side is flagged as having no data and painted a distinct no-data colour. -/
theorem c8_differential_score (delta_bins t_bins : List String)
    (playerErrors fieldErrors : List ErrorEvent) (deltaIdx tIdx : Nat) :
    ((DifferenceHeatmap.getCellDifference delta_bins t_bins playerErrors fieldErrors
        deltaIdx tIdx).hasData = false ↔
      (DifferenceHeatmap.getErrorsForCell delta_bins t_bins deltaIdx tIdx
        playerErrors).length = 0 ∧
      (DifferenceHeatmap.getErrorsForCell delta_bins t_bins deltaIdx tIdx
        fieldErrors).length = 0) ∧
    (((DifferenceHeatmap.getErrorsForCell delta_bins t_bins deltaIdx tIdx
        playerErrors).length ≠ 0 ∨
      (DifferenceHeatmap.getErrorsForCell delta_bins t_bins deltaIdx tIdx
        fieldErrors).length ≠ 0) →
      (DifferenceHeatmap.getCellDifference delta_bins t_bins playerErrors fieldErrors
        deltaIdx tIdx).diff =
        (if 0 < (DifferenceHeatmap.getErrorsForCell delta_bins t_bins deltaIdx tIdx
            fieldErrors).length then
          ((DifferenceHeatmap.getErrorsForCell delta_bins t_bins deltaIdx tIdx
              (DifferenceHeatmap.missedOf fieldErrors)).length : Rat)
            / ((DifferenceHeatmap.getErrorsForCell delta_bins t_bins deltaIdx tIdx
              fieldErrors).length : Rat) * 100
        else 0) -
        (if 0 < (DifferenceHeatmap.getErrorsForCell delta_bins t_bins deltaIdx tIdx
            playerErrors).length then
          ((DifferenceHeatmap.getErrorsForCell delta_bins t_bins deltaIdx tIdx
              (DifferenceHeatmap.missedOf playerErrors)).length : Rat)
            / ((DifferenceHeatmap.getErrorsForCell delta_bins t_bins deltaIdx tIdx
              playerErrors).length : Rat) * 100
        else 0)) ∧
    (∀ d : Rat,
      DifferenceHeatmap.getColor d true
        = DifferenceHeatmap.getColor (max (-50) (min 50 d)) true) ∧
    (∀ d : Rat, DifferenceHeatmap.getColor d false = "rgb(30, 41, 59)") ∧
    DifferenceHeatmap.getColor 0 true = "rgb(51, 65, 85)" ∧
    "rgb(30, 41, 59)" ≠ "rgb(51, 65, 85)" := by
  refine ⟨?_, ?_, ?_, ?_, by decide, by decide⟩
  · simp only [DifferenceHeatmap.getCellDifference]
    by_cases hcond : ((DifferenceHeatmap.getErrorsForCell delta_bins t_bins deltaIdx tIdx
        playerErrors).length = 0 ∧
      (DifferenceHeatmap.getErrorsForCell delta_bins t_bins deltaIdx tIdx
        fieldErrors).length = 0)
    · rw [if_pos hcond]
      simp [hcond]
    · rw [if_neg hcond]
      simp only [List.length_eq_zero] at hcond
      simp [hcond]
  · intro h
    have hc : ¬ ((DifferenceHeatmap.getErrorsForCell delta_bins t_bins deltaIdx tIdx
        playerErrors).length = 0 ∧
      (DifferenceHeatmap.getErrorsForCell delta_bins t_bins deltaIdx tIdx
        fieldErrors).length = 0) := by
      rcases h with h | h
      · exact fun hand => h hand.1
      · exact fun hand => h hand.2
    simp only [DifferenceHeatmap.getCellDifference]
    rw [if_neg hc]
  · intro d
    simp only [DifferenceHeatmap.getColor, Bool.not_true, Bool.false_eq_true,
      if_false, clamp_idem]
  · intro d
    simp [DifferenceHeatmap.getColor]

/-- C8 witness: with one missed player event and no field events the cell has
data and its score is 0 - 100 = -100 before clamping. -/
theorem c8_witness :
    ((DifferenceHeatmap.getErrorsForCell ["100-299"] ["1-3"] 0 0 [evMiss]).length ≠ 0 ∨
      (DifferenceHeatmap.getErrorsForCell ["100-299"] ["1-3"] 0 0
        ([] : List ErrorEvent)).length ≠ 0) ∧
    (DifferenceHeatmap.getCellDifference ["100-299"] ["1-3"] [evMiss] [] 0 0).diff
      = -100 := by
  refine ⟨by decide, ?_⟩
  have h := (c8_differential_score ["100-299"] ["1-3"] [evMiss] [] 0 0).2.1 (by decide)
  rw [h]
  have h1 : (DifferenceHeatmap.getErrorsForCell ["100-299"] ["1-3"] 0 0
      ([] : List ErrorEvent)).length = 0 := by decide
  have h2 : (DifferenceHeatmap.getErrorsForCell ["100-299"] ["1-3"] 0 0
      [evMiss]).length = 1 := by decide
  have h3 : (DifferenceHeatmap.getErrorsForCell ["100-299"] ["1-3"] 0 0
      (DifferenceHeatmap.missedOf [evMiss])).length = 1 := by decide
  rw [h1, h2, h3]
  norm_num

namespace ChessBoardViewer

lemma posAt_succ_some (am : ApplyMove) (e : ErrorEvent) {n : Nat} {p : String}
    (h : posAt am e (n + 1) = some p) : ∃ q, posAt am e n = some q := by
  cases n with
  | zero => exact ⟨e.fen_after, rfl⟩
  | succ m =>
    cases hq : posAt am e (m + 1) with
    | none =>
      rw [posAt, hq] at h
      simp at h
    | some q => exact ⟨q, rfl⟩

lemma posAt_best_nonempty (am : ApplyMove) (e : ErrorEvent) :
    ∀ n : Nat, ∀ p : String, posAt am e (n + 1) = some p → e.best_move_uci ≠ "" := by
  intro n
  induction n with
  | zero =>
    intro p h hbest
    rw [show (0 : Nat) + 1 = 1 from rfl, posAt, if_neg (fun hne => hne hbest)] at h
    exact Option.noConfusion h
  | succ m ih =>
    intro p h
    obtain ⟨q, hq⟩ := posAt_succ_some am e h
    exact ih q hq

lemma handleNext_noop (am : ApplyMove) (mat : MaterialScan) (e : ErrorEvent)
    (s : ReplayState) (h : e.t_plies ≤ s.moveIndex) : handleNext am mat e s = s := by
  unfold handleNext
  rw [if_pos h]

lemma handlePrevious_noop (am : ApplyMove) (mat : MaterialScan) (e : ErrorEvent)
    (s : ReplayState) (h : s.moveIndex = -1) : handlePrevious am mat e s = s := by
  unfold handlePrevious
  rw [if_pos h]

lemma rebuildPosition_eq_posAt (am : ApplyMove) (e : ErrorEvent)
    (hbest : e.best_move_uci ≠ "") :
    ∀ n : Nat, (∀ j : Int, 1 ≤ j → j ≤ (n : Int) → j < (e.pv_moves.length : Int)) →
      rebuildPosition am e (n : Int) = posAt am e (n + 1) := by
  intro n
  induction n with
  | zero =>
    intro hb
    simp only [rebuildPosition]
    rw [if_pos hbest]
    simp only [Int.toNat_natCast, List.range_zero, List.foldl_nil]
    rw [show (0 : Nat) + 1 = 1 from rfl, posAt, if_pos hbest]
  | succ m ih =>
    intro hb
    have hb' : ∀ j : Int, 1 ≤ j → j ≤ (m : Int) → j < (e.pv_moves.length : Int) :=
      fun j h1 h2 => hb j h1 (by omega)
    have hm1 : ((m + 1 : Nat) : Int) < (e.pv_moves.length : Int) :=
      hb ((m + 1 : Nat) : Int) (by omega) (by omega)
    have hcur := ih hb'
    simp only [rebuildPosition] at hcur ⊢
    rw [if_pos hbest] at hcur ⊢
    simp only [Int.toNat_natCast] at hcur ⊢
    rw [List.range_succ, List.foldl_append, List.foldl_cons, List.foldl_nil, hcur,
      if_pos hm1]
    rfl

end ChessBoardViewer

namespace ChessBoardViewer

lemma inv_init (am : ApplyMove) (e : ErrorEvent) (ht : -1 ≤ e.t_plies) :
    ReplayInv am e (initState e) := by
  refine ⟨?_, ?_, ?_, ?_, ?_, ?_⟩
  · show (-1 : Int) ≤ -1
    omega
  · show (-1 : Int) ≤ e.t_plies
    exact ht
  · show posAt am e 0 = some e.fen_after
    rfl
  · intro j hj1 hj2
    have hj2' : j ≤ -1 := hj2
    omega
  · intro h0
    exact absurd (show (0 : Int) ≤ -1 from h0) (by norm_num)
  · intro _
    left
    rfl

lemma inv_next (am : ApplyMove) (mat : MaterialScan) (e : ErrorEvent) (s : ReplayState)
    (h : ReplayInv am e s) : ReplayInv am e (handleNext am mat e s) := by
  obtain ⟨h1, h2, h3, h4, h5, h6⟩ := h
  by_cases hg : e.t_plies ≤ s.moveIndex
  · rw [handleNext_noop am mat e s hg]
    exact ⟨h1, h2, h3, h4, h5, h6⟩
  · by_cases hz : s.moveIndex = -1
    · have hz' : s.moveIndex + 1 = 0 := by omega
      by_cases hbe : e.best_move_uci ≠ ""
      · cases happ : applyUci am s.position e.best_move_uci with
        | none =>
          have hno : handleNext am mat e s = s := by
            simp only [handleNext]
            rw [if_neg hg, if_pos hz', if_pos hbe, happ]
          rw [hno]
          exact ⟨h1, h2, h3, h4, h5, h6⟩
        | some fen2 =>
          have hstep : handleNext am mat e s =
              { position := fen2, moveIndex := 0, customArrows := [],
                currentEval := getEvalForPosition e 0,
                materialDiff := calculateMaterialChange mat e fen2 } := by
            simp only [handleNext]
            rw [if_neg hg, if_pos hz', if_pos hbe, happ]
          have hfa : e.fen_after = s.position := by
            have h3' := h3
            rw [hz] at h3'
            exact Option.some.inj h3'
          rw [hstep]
          refine ⟨?_, ?_, ?_, ?_, ?_, ?_⟩
          · show (-1 : Int) ≤ 0
            omega
          · show (0 : Int) ≤ e.t_plies
            omega
          · show posAt am e 1 = some fen2
            rw [posAt, if_pos hbe, hfa]
            exact happ
          · intro j hj1 hj2
            have hj2' : j ≤ 0 := hj2
            omega
          · intro _
            rfl
          · intro habs
            exact absurd (show (0 : Int) = -1 from habs) (by norm_num)
      · have hno : handleNext am mat e s = s := by
          simp only [handleNext]
          rw [if_neg hg, if_pos hz', if_neg hbe]
        rw [hno]
        exact ⟨h1, h2, h3, h4, h5, h6⟩
    · have h0le : 0 ≤ s.moveIndex := by omega
      have hnz : ¬ (s.moveIndex + 1 = 0) := by omega
      by_cases hlen : s.moveIndex + 1 < (e.pv_moves.length : Int)
      · cases happ : applyUci am s.position (e.pv_moves.getD (s.moveIndex + 1).toNat "") with
        | none =>
          have hno : handleNext am mat e s = s := by
            simp only [handleNext]
            rw [if_neg hg, if_neg hnz, if_pos hlen, happ]
          rw [hno]
          exact ⟨h1, h2, h3, h4, h5, h6⟩
        | some fen2 =>
          have hstep : handleNext am mat e s =
              { position := fen2, moveIndex := s.moveIndex + 1,
                customArrows := s.customArrows,
                currentEval := getEvalForPosition e (s.moveIndex + 1),
                materialDiff := calculateMaterialChange mat e fen2 } := by
            simp only [handleNext]
            rw [if_neg hg, if_neg hnz, if_pos hlen, happ]
          rw [hstep]
          have hT1 : (s.moveIndex + 1 + 1).toNat = s.moveIndex.toNat + 2 := by omega
          have hT2 : (s.moveIndex + 1).toNat = s.moveIndex.toNat + 1 := by omega
          refine ⟨?_, ?_, ?_, ?_, ?_, ?_⟩
          · show (-1 : Int) ≤ s.moveIndex + 1
            omega
          · show s.moveIndex + 1 ≤ e.t_plies
            omega
          · show posAt am e (s.moveIndex + 1 + 1).toNat = some fen2
            rw [hT1, posAt]
            rw [hT2] at happ
            rw [← hT2, h3, hT2]
            simp only [Option.some_bind]
            exact happ
          · intro j hj1 hj2
            have hj2' : j ≤ s.moveIndex + 1 := hj2
            by_cases hjm : j ≤ s.moveIndex
            · exact h4 j hj1 hjm
            · have hje : j = s.moveIndex + 1 := by omega
              rw [hje]
              exact hlen
          · intro _
            show s.customArrows = []
            exact h5 h0le
          · intro habs
            have habs' : s.moveIndex + 1 = -1 := habs
            exfalso
            omega
      · have hno : handleNext am mat e s = s := by
          simp only [handleNext]
          rw [if_neg hg, if_neg hnz, if_neg hlen]
        rw [hno]
        exact ⟨h1, h2, h3, h4, h5, h6⟩

lemma inv_prev (am : ApplyMove) (mat : MaterialScan) (e : ErrorEvent) (s : ReplayState)
    (ht : -1 ≤ e.t_plies) (h : ReplayInv am e s) :
    ReplayInv am e (handlePrevious am mat e s) := by
  obtain ⟨h1, h2, h3, h4, h5, h6⟩ := h
  by_cases hm1 : s.moveIndex = -1
  · rw [handlePrevious_noop am mat e s hm1]
    exact ⟨h1, h2, h3, h4, h5, h6⟩
  · by_cases hm0 : s.moveIndex = 0
    · have hstep : handlePrevious am mat e s =
          { position := e.fen_after, moveIndex := -1,
            customArrows := updateArrows e s.moveIndex,
            currentEval := getEvalForPosition e (-1), materialDiff := 0 } := by
        simp only [handlePrevious]
        rw [if_neg hm1, if_pos hm0]
      rw [hstep]
      refine ⟨?_, ?_, ?_, ?_, ?_, ?_⟩
      · show (-1 : Int) ≤ -1
        omega
      · show (-1 : Int) ≤ e.t_plies
        exact ht
      · show posAt am e 0 = some e.fen_after
        rfl
      · intro j hj1 hj2
        have hj2' : j ≤ -1 := hj2
        omega
      · intro h0
        exact absurd (show (0 : Int) ≤ -1 from h0) (by norm_num)
      · intro _
        right
        rw [hm0]
    · have hge1 : 1 ≤ s.moveIndex := by omega
      have hT2 : (s.moveIndex + 1).toNat = s.moveIndex.toNat + 1 := by omega
      have hbe : e.best_move_uci ≠ "" := by
        apply posAt_best_nonempty am e s.moveIndex.toNat s.position
        rw [← hT2]
        exact h3
      obtain ⟨q, hq⟩ : ∃ q, posAt am e s.moveIndex.toNat = some q :=
        posAt_succ_some am e (hT2 ▸ h3)
      have hreb : rebuildPosition am e (s.moveIndex - 1) = posAt am e s.moveIndex.toNat := by
        have hcast : s.moveIndex - 1 = (((s.moveIndex - 1).toNat : Nat) : Int) := by omega
        have hnat : (s.moveIndex - 1).toNat + 1 = s.moveIndex.toNat := by omega
        rw [hcast, rebuildPosition_eq_posAt am e hbe (s.moveIndex - 1).toNat
          (fun j hj1 hj2 => h4 j hj1 (by omega)), hnat]
      have hstep : handlePrevious am mat e s =
          { position := q, moveIndex := s.moveIndex - 1,
            customArrows := s.customArrows,
            currentEval := getEvalForPosition e (s.moveIndex - 1),
            materialDiff := calculateMaterialChange mat e q } := by
        simp only [handlePrevious]
        rw [if_neg hm1, if_neg hm0, hreb, hq]
      rw [hstep]
      refine ⟨?_, ?_, ?_, ?_, ?_, ?_⟩
      · show (-1 : Int) ≤ s.moveIndex - 1
        omega
      · show s.moveIndex - 1 ≤ e.t_plies
        omega
      · show posAt am e (s.moveIndex - 1 + 1).toNat = some q
        have hsub : (s.moveIndex - 1 + 1).toNat = s.moveIndex.toNat := by omega
        rw [hsub]
        exact hq
      · intro j hj1 hj2
        have hj2' : j ≤ s.moveIndex - 1 := hj2
        exact h4 j hj1 (by omega)
      · intro h0
        show s.customArrows = []
        exact h5 (by omega)
      · intro habs
        have habs' : s.moveIndex - 1 = -1 := habs
        exfalso
        omega

lemma reachable_inv (am : ApplyMove) (mat : MaterialScan) (e : ErrorEvent)
    (ht : -1 ≤ e.t_plies) {s : ReplayState} (h : Reachable am mat e s) :
    ReplayInv am e s := by
  induction h with
  | init => exact inv_init am e ht
  | next _ ih => exact inv_next am mat e _ ih
  | prev _ ih => exact inv_prev am mat e _ ht ih

end ChessBoardViewer

namespace ChessBoardViewer

lemma advance_step (am : ApplyMove) (mat : MaterialScan) (e : ErrorEvent)
    (s : ReplayState) (hinv : ReplayInv am e s) (hlt : s.moveIndex < e.t_plies)
    (hsucc : ∀ p f t pr, am p f t pr ≠ none)
    (hbest : e.best_move_uci ≠ "")
    (hlen : e.t_plies < (e.pv_moves.length : Int)) :
    (handleNext am mat e s).moveIndex = s.moveIndex + 1 := by
  obtain ⟨h1, h2, h3, h4, h5, h6⟩ := hinv
  have hg : ¬ (e.t_plies ≤ s.moveIndex) := by omega
  by_cases hz : s.moveIndex = -1
  · have hz' : s.moveIndex + 1 = 0 := by omega
    obtain ⟨fen2, happ⟩ := Option.ne_none_iff_exists'.mp
      (hsucc s.position (uciFrom e.best_move_uci) (uciTo e.best_move_uci)
        (uciPromotion e.best_move_uci))
    have happ' : applyUci am s.position e.best_move_uci = some fen2 := happ
    have hstep : handleNext am mat e s =
        { position := fen2, moveIndex := 0, customArrows := [],
          currentEval := getEvalForPosition e 0,
          materialDiff := calculateMaterialChange mat e fen2 } := by
      simp only [handleNext]
      rw [if_neg hg, if_pos hz', if_pos hbest, happ']
    rw [hstep]
    show (0 : Int) = s.moveIndex + 1
    omega
  · have hnz : ¬ (s.moveIndex + 1 = 0) := by omega
    have hlen' : s.moveIndex + 1 < (e.pv_moves.length : Int) := by omega
    obtain ⟨fen2, happ⟩ := Option.ne_none_iff_exists'.mp
      (hsucc s.position (uciFrom (e.pv_moves.getD (s.moveIndex + 1).toNat ""))
        (uciTo (e.pv_moves.getD (s.moveIndex + 1).toNat ""))
        (uciPromotion (e.pv_moves.getD (s.moveIndex + 1).toNat "")))
    have happ' : applyUci am s.position (e.pv_moves.getD (s.moveIndex + 1).toNat "")
        = some fen2 := happ
    have hstep : handleNext am mat e s =
        { position := fen2, moveIndex := s.moveIndex + 1,
          customArrows := s.customArrows,
          currentEval := getEvalForPosition e (s.moveIndex + 1),
          materialDiff := calculateMaterialChange mat e fen2 } := by
      simp only [handleNext]
      rw [if_neg hg, if_neg hnz, if_pos hlen', happ']
    rw [hstep]

lemma iterate_advance (am : ApplyMove) (mat : MaterialScan) (e : ErrorEvent)
    (ht : 1 ≤ e.t_plies)
    (hsucc : ∀ p f t pr, am p f t pr ≠ none)
    (hbest : e.best_move_uci ≠ "")
    (hlen : e.t_plies < (e.pv_moves.length : Int)) :
    ∀ n : Nat, (n : Int) ≤ e.t_plies + 1 →
      ((handleNext am mat e)^[n] (initState e)).moveIndex = -1 + n ∧
      ReplayInv am e ((handleNext am mat e)^[n] (initState e)) := by
  intro n
  induction n with
  | zero =>
    intro _
    refine ⟨?_, inv_init am e (by omega)⟩
    show (-1 : Int) = -1 + ((0 : Nat) : Int)
    norm_num
  | succ m ih =>
    intro hle
    have hm : (m : Int) ≤ e.t_plies + 1 := by omega
    obtain ⟨hidx, hinv⟩ := ih hm
    rw [Function.iterate_succ_apply']
    have hlt : ((handleNext am mat e)^[m] (initState e)).moveIndex < e.t_plies := by
      rw [hidx]
      omega
    refine ⟨?_, inv_next am mat e _ hinv⟩
    rw [advance_step am mat e _ hinv hlt hsucc hbest hlen, hidx]
    push_cast
    ring

lemma bestReply_ne_mistake (e : ErrorEvent) : bestReplyArrow e ≠ mistakeArrow e := by
  intro h
  have h3 : "rgba(135, 206, 250, 0.7)" = "rgba(0, 0, 0, 0.5)" :=
    congrArg (fun p => p.2.2) h
  exact absurd h3 (by decide)

end ChessBoardViewer

/-- C4 (amended): the replay cursor stays within [-1, t_plies]; advance at
the terminal cursor t_plies is a no-op and retreat at -1 is a no-op; and
provided every rules-engine move application succeeds, best_move_uci is
non-empty and pv_moves has more than t_plies entries, t_plies + 1 advance
calls from the initial state put the cursor at t_plies, after which advance
is a no-op. -/
theorem c4_cursor_bounds (am : ChessBoardViewer.ApplyMove)
    (mat : ChessBoardViewer.MaterialScan) (e : ErrorEvent) (ht : 1 ≤ e.t_plies) :
    (∀ s, ChessBoardViewer.Reachable am mat e s →
      -1 ≤ s.moveIndex ∧ s.moveIndex ≤ e.t_plies) ∧
    (∀ s : ChessBoardViewer.ReplayState, e.t_plies ≤ s.moveIndex →
      ChessBoardViewer.handleNext am mat e s = s) ∧
    (∀ s : ChessBoardViewer.ReplayState, s.moveIndex = -1 →
      ChessBoardViewer.handlePrevious am mat e s = s) ∧
    ((∀ p f t pr, am p f t pr ≠ none) → e.best_move_uci ≠ "" →
      e.t_plies < (e.pv_moves.length : Int) →
      ((ChessBoardViewer.handleNext am mat e)^[e.t_plies.toNat + 1]
        (ChessBoardViewer.initState e)).moveIndex = e.t_plies ∧
      ChessBoardViewer.handleNext am mat e
          ((ChessBoardViewer.handleNext am mat e)^[e.t_plies.toNat + 1]
            (ChessBoardViewer.initState e))
        = (ChessBoardViewer.handleNext am mat e)^[e.t_plies.toNat + 1]
            (ChessBoardViewer.initState e)) := by
  refine ⟨?_, fun s h => ChessBoardViewer.handleNext_noop am mat e s h,
    fun s h => ChessBoardViewer.handlePrevious_noop am mat e s h, ?_⟩
  · intro s hs
    obtain ⟨h1, h2, _, _, _, _⟩ := ChessBoardViewer.reachable_inv am mat e (by omega) hs
    exact ⟨h1, h2⟩
  · intro hsucc hbest hlen
    obtain ⟨hidx, hinv⟩ := ChessBoardViewer.iterate_advance am mat e ht hsucc hbest hlen
      (e.t_plies.toNat + 1) (by omega)
    have hfinal : ((ChessBoardViewer.handleNext am mat e)^[e.t_plies.toNat + 1]
        (ChessBoardViewer.initState e)).moveIndex = e.t_plies := by
      rw [hidx]
      omega
    exact ⟨hfinal, ChessBoardViewer.handleNext_noop am mat e _ (le_of_eq hfinal.symm)⟩

/-- C4 witness: with the toy rules engine and an event with t_plies = 2 and
three pv moves, 3 advance calls land the cursor exactly at t_plies. -/
theorem c4_witness :
    1 ≤ ChessBoardViewer.evReplay.t_plies ∧
    ((ChessBoardViewer.handleNext ChessBoardViewer.toyAm ChessBoardViewer.toyMat
        ChessBoardViewer.evReplay)^[ChessBoardViewer.evReplay.t_plies.toNat + 1]
      (ChessBoardViewer.initState ChessBoardViewer.evReplay)).moveIndex
      = ChessBoardViewer.evReplay.t_plies := by
  refine ⟨by decide, ?_⟩
  exact ((c4_cursor_bounds ChessBoardViewer.toyAm ChessBoardViewer.toyMat
    ChessBoardViewer.evReplay (by decide)).2.2.2
    (fun p f t pr => by simp [ChessBoardViewer.toyAm]) (by decide) (by decide)).1

/-- C4 counterexample: with pv_moves exactly as long as t_plies (2 entries),
t_plies + 1 = 3 advance calls from the initial state leave the cursor at 1,
not at t_plies = 2, refuting the unconditional claim. -/
theorem c4_counterexample :
    ((ChessBoardViewer.handleNext ChessBoardViewer.toyAm ChessBoardViewer.toyMat
        ChessBoardViewer.evShortPv)^[ChessBoardViewer.evShortPv.t_plies.toNat + 1]
      (ChessBoardViewer.initState ChessBoardViewer.evShortPv)).moveIndex = 1 ∧
    ChessBoardViewer.evShortPv.t_plies = 2 := by
  exact ⟨by decide, rfl⟩

/-- C5 (amended): from any reachable state whose advance call actually moves
the cursor forward, advance followed by retreat restores exactly the same
board position string, even though retreat rebuilds the position from scratch
from fen_after. -/
theorem c5_advance_retreat_roundtrip (am : ChessBoardViewer.ApplyMove)
    (mat : ChessBoardViewer.MaterialScan) (e : ErrorEvent) (ht : 1 ≤ e.t_plies)
    (s : ChessBoardViewer.ReplayState) (hs : ChessBoardViewer.Reachable am mat e s)
    (hadv : (ChessBoardViewer.handleNext am mat e s).moveIndex = s.moveIndex + 1) :
    (ChessBoardViewer.handlePrevious am mat e
      (ChessBoardViewer.handleNext am mat e s)).position = s.position := by
  have hinv := ChessBoardViewer.reachable_inv am mat e (by omega) hs
  have hinv' := ChessBoardViewer.inv_next am mat e s hinv
  obtain ⟨h1, h2, h3, h4, h5, h6⟩ := hinv
  set s' := ChessBoardViewer.handleNext am mat e s with hs'
  obtain ⟨g1, g2, g3, g4, g5, g6⟩ := hinv'
  by_cases hz : s.moveIndex = -1
  · have hm0 : s'.moveIndex = 0 := by omega
    have hm1 : ¬ (s'.moveIndex = -1) := by omega
    have hstep : ChessBoardViewer.handlePrevious am mat e s' =
        { position := e.fen_after, moveIndex := -1,
          customArrows := ChessBoardViewer.updateArrows e s'.moveIndex,
          currentEval := ChessBoardViewer.getEvalForPosition e (-1),
          materialDiff := 0 } := by
      simp only [ChessBoardViewer.handlePrevious]
      rw [if_neg hm1, if_pos hm0]
    rw [hstep]
    show e.fen_after = s.position
    have h3' := h3
    rw [hz] at h3'
    exact Option.some.inj h3'
  · have h0le : 0 ≤ s.moveIndex := by omega
    have hm1 : ¬ (s'.moveIndex = -1) := by omega
    have hm0 : ¬ (s'.moveIndex = 0) := by omega
    have hbe : e.best_move_uci ≠ "" := by
      apply ChessBoardViewer.posAt_best_nonempty am e ((s'.moveIndex + 1).toNat - 1)
        s'.position
      have heq : (s'.moveIndex + 1).toNat - 1 + 1 = (s'.moveIndex + 1).toNat := by omega
      rw [heq]
      exact g3
    have hreb : ChessBoardViewer.rebuildPosition am e (s'.moveIndex - 1)
        = ChessBoardViewer.posAt am e (s.moveIndex + 1).toNat := by
      have hcast : s'.moveIndex - 1 = (((s'.moveIndex - 1).toNat : Nat) : Int) := by omega
      have hnat : (s'.moveIndex - 1).toNat + 1 = (s.moveIndex + 1).toNat := by omega
      rw [hcast, ChessBoardViewer.rebuildPosition_eq_posAt am e hbe
        (s'.moveIndex - 1).toNat (fun j hj1 hj2 => g4 j hj1 (by omega)), hnat]
    have hstep : ChessBoardViewer.handlePrevious am mat e s' =
        { position := s.position, moveIndex := s'.moveIndex - 1,
          customArrows := s'.customArrows,
          currentEval := ChessBoardViewer.getEvalForPosition e (s'.moveIndex - 1),
          materialDiff := ChessBoardViewer.calculateMaterialChange mat e s.position } := by
      simp only [ChessBoardViewer.handlePrevious]
      rw [if_neg hm1, if_neg hm0, hreb, h3]
    rw [hstep]

/-- C5 witness: advancing from the initial state (which does move the cursor,
to 0) and retreating restores the initial position string. -/
theorem c5_witness :
    (ChessBoardViewer.handleNext ChessBoardViewer.toyAm ChessBoardViewer.toyMat
        ChessBoardViewer.evReplay
        (ChessBoardViewer.initState ChessBoardViewer.evReplay)).moveIndex
      = (ChessBoardViewer.initState ChessBoardViewer.evReplay).moveIndex + 1 ∧
    (ChessBoardViewer.handlePrevious ChessBoardViewer.toyAm ChessBoardViewer.toyMat
      ChessBoardViewer.evReplay
      (ChessBoardViewer.handleNext ChessBoardViewer.toyAm ChessBoardViewer.toyMat
        ChessBoardViewer.evReplay
        (ChessBoardViewer.initState ChessBoardViewer.evReplay))).position
      = (ChessBoardViewer.initState ChessBoardViewer.evReplay).position := by
  refine ⟨by decide, ?_⟩
  exact c5_advance_retreat_roundtrip ChessBoardViewer.toyAm ChessBoardViewer.toyMat
    ChessBoardViewer.evReplay (by decide) _ ChessBoardViewer.Reachable.init (by decide)

/-- C5 counterexample: at the reachable interior state with cursor 1 of an
event with t_plies = 5 but only 2 pv moves, advance is a no-op, so advance
followed by retreat moves the position back to the cursor-0 position instead
of restoring it, refuting the unconditional claim over all interior states. -/
theorem c5_counterexample :
    ((ChessBoardViewer.handleNext ChessBoardViewer.toyAm ChessBoardViewer.toyMat
        ChessBoardViewer.evStall)^[2]
      (ChessBoardViewer.initState ChessBoardViewer.evStall)).moveIndex = 1 ∧
    (1 : Int) < ChessBoardViewer.evStall.t_plies ∧
    (ChessBoardViewer.handlePrevious ChessBoardViewer.toyAm ChessBoardViewer.toyMat
        ChessBoardViewer.evStall
        (ChessBoardViewer.handleNext ChessBoardViewer.toyAm ChessBoardViewer.toyMat
          ChessBoardViewer.evStall
          ((ChessBoardViewer.handleNext ChessBoardViewer.toyAm ChessBoardViewer.toyMat
              ChessBoardViewer.evStall)^[2]
            (ChessBoardViewer.initState ChessBoardViewer.evStall)))).position
      ≠ ((ChessBoardViewer.handleNext ChessBoardViewer.toyAm ChessBoardViewer.toyMat
            ChessBoardViewer.evStall)^[2]
          (ChessBoardViewer.initState ChessBoardViewer.evStall)).position := by
  exact ⟨by decide, by decide, by decide⟩

/-- C6: the displayed evaluation is eval_before/100 at cursor -1, the stored
pv_evals entry divided by 100 when the cursor indexes into pv_evals, and
otherwise the linear fallback eval_before/100 + (delta_cp/100)*(k+1)/t_plies
(for events with t_plies at least 1). -/
theorem c6_eval_lookup (e : ErrorEvent) (k : Int) :
    (ChessBoardViewer.getEvalForPosition e (-1) = (e.eval_before : Rat) / 100) ∧
    (0 ≤ k → k < (e.pv_evals.length : Int) →
      ChessBoardViewer.getEvalForPosition e k
        = ((e.pv_evals.getD k.toNat 0 : Int) : Rat) / 100) ∧
    (0 ≤ k → (e.pv_evals.length : Int) ≤ k → 1 ≤ e.t_plies →
      ChessBoardViewer.getEvalForPosition e k
        = (e.eval_before : Rat) / 100
          + ((e.delta_cp : Rat) / 100) * (((k + 1 : Int) : Rat) / ((e.t_plies : Int) : Rat))) := by
  refine ⟨?_, ?_, ?_⟩
  · simp [ChessBoardViewer.getEvalForPosition]
  · intro h0 hlt
    simp only [ChessBoardViewer.getEvalForPosition]
    rw [if_neg (by omega : ¬ k = -1),
      if_pos (⟨by omega, hlt⟩ : 0 < e.pv_evals.length ∧ k < (e.pv_evals.length : Int))]
  · intro h0 hge hT
    simp only [ChessBoardViewer.getEvalForPosition]
    rw [if_neg (by omega : ¬ k = -1),
      if_neg (fun hand => absurd hand.2 (not_lt.mpr hge)),
      if_neg (by omega : ¬ e.t_plies = 0)]

/-- C6 witness: on the concrete replay event (pv_evals [30, 50], eval_before
120, delta_cp 250, t_plies 2) all three branches produce the stated values. -/
theorem c6_witness :
    (ChessBoardViewer.getEvalForPosition ChessBoardViewer.evReplay (-1)
      = (ChessBoardViewer.evReplay.eval_before : Rat) / 100) ∧
    (0 ≤ (1 : Int)) ∧ ((1 : Int) < (ChessBoardViewer.evReplay.pv_evals.length : Int)) ∧
    (ChessBoardViewer.getEvalForPosition ChessBoardViewer.evReplay 1
      = ((ChessBoardViewer.evReplay.pv_evals.getD (1 : Int).toNat 0 : Int) : Rat) / 100) ∧
    (0 ≤ (5 : Int)) ∧ ((ChessBoardViewer.evReplay.pv_evals.length : Int) ≤ 5) ∧
    (1 ≤ ChessBoardViewer.evReplay.t_plies) ∧
    (ChessBoardViewer.getEvalForPosition ChessBoardViewer.evReplay 5
      = (ChessBoardViewer.evReplay.eval_before : Rat) / 100
        + ((ChessBoardViewer.evReplay.delta_cp : Rat) / 100)
          * ((((5 : Int) + 1 : Int) : Rat) / ((ChessBoardViewer.evReplay.t_plies : Int) : Rat))) := by
  refine ⟨(c6_eval_lookup ChessBoardViewer.evReplay 0).1, by decide, by decide, ?_,
    by decide, by decide, by decide, ?_⟩
  · exact (c6_eval_lookup ChessBoardViewer.evReplay 1).2.1 (by decide) (by decide)
  · exact (c6_eval_lookup ChessBoardViewer.evReplay 5).2.2 (by decide) (by decide) (by decide)

/-- C9 (amended): in every reachable state the mistake arrow is shown at
cursor -1, the arrow list is empty at cursor 0 and beyond (advancing clears
all arrows, including the mistake arrow), and the best-reply arrow is only
ever shown at cursor -1 with a non-empty best_move_uci. -/
theorem c9_arrow_overlays (am : ChessBoardViewer.ApplyMove)
    (mat : ChessBoardViewer.MaterialScan) (e : ErrorEvent) (ht : 1 ≤ e.t_plies)
    (s : ChessBoardViewer.ReplayState) (hs : ChessBoardViewer.Reachable am mat e s) :
    (s.moveIndex = -1 → ChessBoardViewer.mistakeArrow e ∈ s.customArrows) ∧
    (0 ≤ s.moveIndex → s.customArrows = []) ∧
    (ChessBoardViewer.bestReplyArrow e ∈ s.customArrows →
      s.moveIndex = -1 ∧ e.best_move_uci ≠ "") := by
  obtain ⟨h1, h2, h3, h4, h5, h6⟩ := ChessBoardViewer.reachable_inv am mat e (by omega) hs
  refine ⟨?_, h5, ?_⟩
  · intro hm
    rcases h6 hm with harr | harr <;> rw [harr] <;>
      simp [ChessBoardViewer.updateArrows]
  · intro hmem
    by_cases hm : s.moveIndex = -1
    · refine ⟨hm, ?_⟩
      by_cases hbe : e.best_move_uci ≠ ""
      · exact hbe
      · exfalso
        rcases h6 hm with harr | harr <;> rw [harr] at hmem <;>
          simp only [ChessBoardViewer.updateArrows] at hmem
        · rw [if_neg (fun hand => hbe hand.2)] at hmem
          simp at hmem
          exact absurd hmem (ChessBoardViewer.bestReply_ne_mistake e)
        · rw [if_neg (fun hand => absurd hand.1 (by norm_num))] at hmem
          simp at hmem
          exact absurd hmem (ChessBoardViewer.bestReply_ne_mistake e)
    · exfalso
      rw [h5 (by omega)] at hmem
      simp at hmem

/-- C9 witness: in the freshly mounted state (cursor -1) the mistake arrow is
shown. -/
theorem c9_witness :
    (ChessBoardViewer.initState ChessBoardViewer.evReplay).moveIndex = -1 ∧
    ChessBoardViewer.mistakeArrow ChessBoardViewer.evReplay
      ∈ (ChessBoardViewer.initState ChessBoardViewer.evReplay).customArrows := by
  refine ⟨rfl, ?_⟩
  exact (c9_arrow_overlays ChessBoardViewer.toyAm ChessBoardViewer.toyMat
    ChessBoardViewer.evReplay (by decide) _ ChessBoardViewer.Reachable.init).1 rfl

/-- C9 counterexample: advancing from the initial state to cursor 0 (inside
[-1, t_plies]) leaves an empty arrow list, so the opponent's mistake arrow is
not shown there, refuting the claim that it is shown at every cursor state. -/
theorem c9_counterexample :
    (ChessBoardViewer.handleNext ChessBoardViewer.toyAm ChessBoardViewer.toyMat
        ChessBoardViewer.evReplay
        (ChessBoardViewer.initState ChessBoardViewer.evReplay)).moveIndex = 0 ∧
    (0 : Int) ≤ ChessBoardViewer.evReplay.t_plies ∧
    (ChessBoardViewer.handleNext ChessBoardViewer.toyAm ChessBoardViewer.toyMat
        ChessBoardViewer.evReplay
        (ChessBoardViewer.initState ChessBoardViewer.evReplay)).customArrows = [] ∧
    ChessBoardViewer.mistakeArrow ChessBoardViewer.evReplay
      ∉ (ChessBoardViewer.handleNext ChessBoardViewer.toyAm ChessBoardViewer.toyMat
          ChessBoardViewer.evReplay
          (ChessBoardViewer.initState ChessBoardViewer.evReplay)).customArrows := by
  exact ⟨by decide, by decide, by decide, by decide⟩

/-- C10: at a cursor k at least 0 with pv_moves too short to contain index
k + 1, advance is a no-op (cursor, position, evaluation and material delta
unchanged) even below t_plies; reachable cursors at 1 or above never exceed
pv_moves.length - 1; and when pv_moves has at most t_plies entries the
terminal cursor t_plies is unreachable. -/
theorem c10_short_pv_stalls (am : ChessBoardViewer.ApplyMove)
    (mat : ChessBoardViewer.MaterialScan) (e : ErrorEvent) (ht : 1 ≤ e.t_plies) :
    (∀ s : ChessBoardViewer.ReplayState, 0 ≤ s.moveIndex → s.moveIndex < e.t_plies →
      (e.pv_moves.length : Int) ≤ s.moveIndex + 1 →
      ChessBoardViewer.handleNext am mat e s = s) ∧
    (∀ s, ChessBoardViewer.Reachable am mat e s → 1 ≤ s.moveIndex →
      s.moveIndex ≤ (e.pv_moves.length : Int) - 1) ∧
    ((e.pv_moves.length : Int) ≤ e.t_plies →
      ∀ s, ChessBoardViewer.Reachable am mat e s → s.moveIndex ≠ e.t_plies) := by
  refine ⟨?_, ?_, ?_⟩
  · intro s h0 hlt hlen
    simp only [ChessBoardViewer.handleNext]
    rw [if_neg (by omega : ¬ e.t_plies ≤ s.moveIndex),
      if_neg (by omega : ¬ s.moveIndex + 1 = 0),
      if_neg (by omega : ¬ s.moveIndex + 1 < (e.pv_moves.length : Int))]
  · intro s hs hge
    obtain ⟨_, _, _, h4, _, _⟩ := ChessBoardViewer.reachable_inv am mat e (by omega) hs
    have hb := h4 s.moveIndex (by omega) (le_refl _)
    omega
  · intro hlen s hs heq
    obtain ⟨_, _, _, h4, _, _⟩ := ChessBoardViewer.reachable_inv am mat e (by omega) hs
    have hb := h4 s.moveIndex (by omega) (le_refl _)
    omega

/-- C10 witness: at the reachable cursor-1 state of the short-pv event
(pv_moves length 2, t_plies 2), advance is a no-op although the cursor is
below t_plies. -/
theorem c10_witness :
    0 ≤ ((ChessBoardViewer.handleNext ChessBoardViewer.toyAm ChessBoardViewer.toyMat
        ChessBoardViewer.evShortPv)^[2]
      (ChessBoardViewer.initState ChessBoardViewer.evShortPv)).moveIndex ∧
    ((ChessBoardViewer.handleNext ChessBoardViewer.toyAm ChessBoardViewer.toyMat
        ChessBoardViewer.evShortPv)^[2]
      (ChessBoardViewer.initState ChessBoardViewer.evShortPv)).moveIndex
      < ChessBoardViewer.evShortPv.t_plies ∧
    (ChessBoardViewer.evShortPv.pv_moves.length : Int)
      ≤ ((ChessBoardViewer.handleNext ChessBoardViewer.toyAm ChessBoardViewer.toyMat
          ChessBoardViewer.evShortPv)^[2]
        (ChessBoardViewer.initState ChessBoardViewer.evShortPv)).moveIndex + 1 ∧
    ChessBoardViewer.handleNext ChessBoardViewer.toyAm ChessBoardViewer.toyMat
        ChessBoardViewer.evShortPv
        ((ChessBoardViewer.handleNext ChessBoardViewer.toyAm ChessBoardViewer.toyMat
            ChessBoardViewer.evShortPv)^[2]
          (ChessBoardViewer.initState ChessBoardViewer.evShortPv))
      = ((ChessBoardViewer.handleNext ChessBoardViewer.toyAm ChessBoardViewer.toyMat
          ChessBoardViewer.evShortPv)^[2]
        (ChessBoardViewer.initState ChessBoardViewer.evShortPv)) := by
  refine ⟨by decide, by decide, by decide, ?_⟩
  exact (c10_short_pv_stalls ChessBoardViewer.toyAm ChessBoardViewer.toyMat
    ChessBoardViewer.evShortPv (by decide)).1 _ (by decide) (by decide) (by decide)
